import Mathlib

/-
Verification development for the cloudflare-dyndns-worker repository.

The TypeScript sources are shallowly embedded here:
  - JavaScript strings are modelled as lists of Unicode code points
    (abbrev JStr := List Nat); the helper s2l converts a Lean string
    literal to this representation for concrete test inputs.
  - Promise-returning fallible functions are modelled with Except.
  - Network effects (IP-echo providers, the Cloudflare REST API) are
    modelled by scripted environments: a record of pure functions giving
    the outcome of each outbound call.  Issued update calls are collected
    into an explicit trace so that frame properties (how many writes were
    issued) are provable.
  - Log output is ignored; error message strings that carry no control
    flow are abstracted into structured error values, with each
    constructor noting which thrown Error of the source it stands for.
-/

namespace Dyndns

/-- A JavaScript string, modelled as its list of Unicode code points. -/
abbrev JStr := List Nat

/-- Equality on Except results is decidable componentwise, so concrete
runs of the embedded operations can be checked by evaluation. -/
instance {ε α : Type} [DecidableEq ε] [DecidableEq α] :
    DecidableEq (Except ε α) := fun a b =>
  match a, b with
  | Except.ok x, Except.ok y =>
    if h : x = y then isTrue (by rw [h])
    else isFalse (fun hh => h (Except.ok.inj hh))
  | Except.error x, Except.error y =>
    if h : x = y then isTrue (by rw [h])
    else isFalse (fun hh => h (Except.error.inj hh))
  | Except.ok _, Except.error _ => isFalse (fun hh => Except.noConfusion hh)
  | Except.error _, Except.ok _ => isFalse (fun hh => Except.noConfusion hh)

/-- Converts a Lean string literal to the JStr model, for concrete inputs. -/
def s2l (s : String) : JStr := s.data.map Char.toNat

/-- Whitespace recognised by the JavaScript String.prototype.trim
(ASCII whitespace, NBSP, and the Unicode space separators relevant here). -/
def isJsWs (c : Nat) : Bool :=
  c = 9 || c = 10 || c = 11 || c = 12 || c = 13 || c = 32 ||
  c = 160 || c = 8232 || c = 8233 || c = 65279

/-- Code-point level lowering done by String.prototype.toLowerCase on the
ASCII range (the only range reachable from address literals). -/
def toLowerCh (c : Nat) : Nat := if 65 ≤ c && c ≤ 90 then c + 32 else c

/-- Embeds the JavaScript call s.trim(). -/
def trimJs (l : JStr) : JStr :=
  ((l.dropWhile isJsWs).reverse.dropWhile isJsWs).reverse

/-- Embeds the JavaScript call s.toLowerCase(). -/
def toLowerJs (l : JStr) : JStr := l.map toLowerCh

/-- Embeds the normalisation applied in DNSUpdater.updateRecord, step 3:
content.trim().toLowerCase(). -/
def normalizeIP (l : JStr) : JStr := toLowerJs (trimJs l)

/-! ### ipDetection.ts: address validators -/

/-- Decimal digit code point, as matched by the regex class \d. -/
def isDigitCh (c : Nat) : Bool := 48 ≤ c && c ≤ 57

/-- Hexadecimal digit code point, as matched by [0-9a-fA-F]. -/
def isHexCh (c : Nat) : Bool :=
  isDigitCh c || (97 ≤ c && c ≤ 102) || (65 ≤ c && c ≤ 70)

/-- Splits a string on a separator code point, JavaScript split semantics:
an empty string yields one empty part, separators at the ends yield empty
parts. -/
def splitOnCh (d : Nat) : JStr → List JStr
  | [] => [[]]
  | c :: rest =>
    if c = d then [] :: splitOnCh d rest
    else
      match splitOnCh d rest with
      | [] => [[c]]
      | g :: gs => (c :: g) :: gs

/-- Numeric value of a digit string, as computed by parseInt(octet, 10)
on a nonempty all-digit group. -/
def groupVal (g : JStr) : Nat := g.foldl (fun acc c => acc * 10 + (c - 48)) 0

/-- Matcher for one regex group (\d{1,3}) anchored at the front: takes the
maximal digit run and succeeds when its length is between 1 and 3.  Because
the group is always followed by a literal dot or the end anchor, neither of
which a digit can match, greedy matching without backtracking is equivalent
to the regex engine semantics. -/
def matchGroup (s : JStr) : Option (JStr × JStr) :=
  let ds := s.takeWhile isDigitCh
  let rest := s.dropWhile isDigitCh
  if 1 ≤ ds.length && ds.length ≤ 3 then some (ds, rest) else none

/-- Matcher for n dot-separated \d{1,3} groups followed by the end anchor;
matchGroups 4 s embeds the regex of isValidIPv4. -/
def matchGroups : Nat → JStr → Option (List JStr)
  | 0, _ => none
  | 1, s =>
    match matchGroup s with
    | some (g, []) => some [g]
    | _ => none
  | n + 2, s =>
    match matchGroup s with
    | some (g, c :: rest) =>
      if c = 46 then (matchGroups (n + 1) rest).map (g :: ·) else none
    | _ => none

/-- Embeds isValidIPv4 of ipDetection.ts: the anchored regex with four
\d{1,3} groups separated by literal dots, then each captured octet checked
to parse into the range 0..255 (the lower bound is vacuous on digits). -/
def isValidIPv4 (s : JStr) : Bool :=
  match matchGroups 4 s with
  | some gs => gs.all (fun g => groupVal g ≤ 255)
  | none => false

/-- Embeds isValidIPv6 of ipDetection.ts.  The anchored regex
([0-9a-fA-F]{0,4}:){2,7}[0-9a-fA-F]{0,4} constrains the colon-separated
parts exactly: the repetition count equals the number of colons, so the
string matches iff splitting on colons gives between 3 and 9 parts, each of
at most 4 hex digits; the additional includes-colon check of the source is
implied.  (The repetition bound 7 allows up to 7 colons, hence up to 8
parts; 3 parts correspond to the minimum of 2 colons.) -/
def isValidIPv6 (s : JStr) : Bool :=
  let ps := splitOnCh 58 s
  3 ≤ ps.length && ps.length ≤ 8 &&
    ps.all (fun g => g.length ≤ 4 && g.all isHexCh)

/-- Embeds isValidIP of ipDetection.ts. -/
def isValidIP (s : JStr) : Bool := isValidIPv4 s || isValidIPv6 s

/-! ### ipDetection.ts: providers and discovery -/

/-- One thrown IPDetectionError, with the message assembly abstracted into
structure: exhausted carries the provider count and every recorded
per-provider message that the source joins into one string; wrongFamily
stands for the received-wrong-family message of getPublicIPv4 and
getPublicIPv6 and carries the offending address. -/
inductive IPDetectionError where
  | exhausted (tried : Nat) (msgs : List JStr)
  | wrongFamily (ip : JStr)
  deriving DecidableEq, Repr

/-- Scripted outcome of one IP-echo provider request: the JSON variant
carries the HTTP ok flag and the parsed ip field when present and string
valued; the plain variant carries the ok flag and the raw text body; fail
stands for a fetch rejection or abort, carrying the message that the
corresponding catch clause of fetchJSONProvider or fetchPlainProvider
produces. -/
inductive Provider where
  | json (ok : Bool) (ipField : Option JStr)
  | plain (ok : Bool) (body : JStr)
  | fail (msg : JStr)
  deriving DecidableEq, Repr

/-- Embeds fetchJSONProvider and fetchPlainProvider of ipDetection.ts:
HTTP failure, missing or non-string ip field, and a trimmed result not
accepted by isValidIP each raise an error; otherwise the trimmed address
is returned.  Both fetchers validate with the family-agnostic isValidIP. -/
def fetchProvider : Provider → Except JStr JStr
  | Provider.json ok ipField =>
    if !ok then Except.error (s2l "HTTP error")
    else
      match ipField with
      | none => Except.error (s2l "Invalid response format")
      | some raw =>
        let ip := trimJs raw
        if !isValidIP ip then Except.error (s2l "Invalid IP format: " ++ ip)
        else Except.ok ip
  | Provider.plain ok body =>
    if !ok then Except.error (s2l "HTTP error")
    else
      let ip := trimJs body
      if !isValidIP ip then Except.error (s2l "Invalid IP format: " ++ ip)
      else Except.ok ip
  | Provider.fail msg => Except.error msg

/-- Loop body of tryProviders of ipDetection.ts, with the accumulated error
messages made explicit: first success returns immediately; a failing
provider has its message recorded and the next provider is tried; after the
last provider the IPDetectionError carries the provider count and all
recorded messages. -/
def tryProvidersAux (errs : List JStr) :
    List Provider → Except IPDetectionError JStr
  | [] => Except.error (IPDetectionError.exhausted errs.length errs)
  | p :: ps =>
    match fetchProvider p with
    | Except.ok ip => Except.ok ip
    | Except.error m => tryProvidersAux (errs ++ [m]) ps

/-- Embeds tryProviders of ipDetection.ts. -/
def tryProviders (ps : List Provider) : Except IPDetectionError JStr :=
  tryProvidersAux [] ps

/-- Embeds getPublicIPv4 of ipDetection.ts, parameterised by the scripted
responses of its provider list (JSON api.ipify, plain ipv4.icanhazip,
plain checkip.amazonaws in the deployed list): tryProviders runs first and
the requested-family check is applied once to its result. -/
def getPublicIPv4 (ps : List Provider) : Except IPDetectionError JStr :=
  match tryProviders ps with
  | Except.error e => Except.error e
  | Except.ok ip =>
    if !isValidIPv4 ip then Except.error (IPDetectionError.wrongFamily ip)
    else Except.ok ip

/-- Embeds getPublicIPv6 of ipDetection.ts, same shape as getPublicIPv4. -/
def getPublicIPv6 (ps : List Provider) : Except IPDetectionError JStr :=
  match tryProviders ps with
  | Except.error e => Except.error e
  | Except.ok ip =>
    if !isValidIPv6 ip then Except.error (IPDetectionError.wrongFamily ip)
    else Except.ok ip

/-! ### cloudflare.ts: client data model -/

/-- The DNS record types accepted by the updater paths under study. -/
inductive RecType where
  | A
  | AAAA
  deriving DecidableEq, Repr

/-- Embeds CloudflareAPIError: a message (abstracted) plus the optional
numeric status code consulted by upstream classification. -/
structure CFError where
  statusCode : Option Nat
  msg : JStr
  deriving DecidableEq, Repr

/-- Embeds the DNSRecord interface of cloudflare.ts (timestamps dropped:
no embedded operation reads them). -/
structure DNSRecord where
  id : JStr
  type : RecType
  name : JStr
  content : JStr
  proxied : Bool
  ttl : Nat
  deriving DecidableEq, Repr

/-- Embeds the update payload built by CloudflareClient.updateDNSRecord:
type and content always present, name, ttl and proxied included exactly
when the caller supplied them (partial-update semantics: a none field is
absent from the JSON body). -/
structure UpdateData where
  type : RecType
  content : JStr
  name : Option JStr
  ttl : Option Nat
  proxied : Option Bool
  deriving DecidableEq, Repr

/-- One issued PUT to the provider: zone id, record id, and body. -/
structure UpdateCall where
  zoneId : JStr
  recordId : JStr
  data : UpdateData
  deriving DecidableEq, Repr

/-! ### config: types and the array loader -/

/-- Embeds RecordConfig of the config types: optional record id, full
name, type, and the optional proxy flag. -/
structure RecordConfig where
  id : Option JStr
  name : JStr
  type : RecType
  proxied : Option Bool
  deriving DecidableEq, Repr

/-- Embeds ZoneConfig of the config types. -/
structure ZoneConfig where
  zoneId : JStr
  domain : JStr
  records : List RecordConfig
  deriving DecidableEq, Repr

/-- A JavaScript value of type boolean | string | undefined, the type of
the proxy field of the array configuration format. -/
inductive JsVal where
  | bool (b : Bool)
  | str (s : JStr)
  | undef
  deriving DecidableEq, Repr

/-- Embeds parseBoolean of config/index.ts. -/
def parseBoolean (v : JsVal) (defaultValue : Bool) : Bool :=
  match v with
  | JsVal.undef => defaultValue
  | JsVal.bool b => b
  | JsVal.str s => s = s2l "true" || s = s2l "1"

/-- Embeds SimpleRecordConfig of the config types: zone and optional
subdomain, the proxy field as it arrives from JSON (possibly absent), and
the optional type. -/
structure SimpleRecordConfig where
  zone : JStr
  subdomain : Option JStr
  proxy : JsVal
  type : Option RecType
  deriving DecidableEq, Repr

/-- Embeds the per-record construction inside the loadArrayConfig loop of
config/index.ts: subdomain defaulted to the empty string, type defaulted
to A, proxied set to parseBoolean(record.proxy, false), and the record
name built as subdomain.zone when the subdomain is nonempty, else zone.
Zone-id resolution and grouping by zone are orthogonal to the claims and
are not replayed here. -/
def buildRecordConfig (r : SimpleRecordConfig) : RecordConfig :=
  let subdomain := r.subdomain.getD []
  let recordType := r.type.getD RecType.A
  let proxied := parseBoolean r.proxy false
  let recordName :=
    if subdomain = [] then r.zone else subdomain ++ (46 :: r.zone)
  { id := none, name := recordName, type := recordType,
    proxied := some proxied }

/-! ### dnsUpdater.ts: the reconciler -/

/-- Per-target failure captured by the catch clause of processZone:
detect stands for a thrown IPDetectionError, cf for a thrown
CloudflareAPIError, and notFound for the record-not-found Error thrown by
updateRecord (carrying the data interpolated into its message). -/
inductive TargetError where
  | detect (e : IPDetectionError)
  | cf (e : CFError)
  | notFound (name : JStr) (rtype : RecType) (domain : JStr)
  deriving DecidableEq, Repr

/-- Scripted outcomes of the outbound calls one reconciliation pass can
make: the discovery results per family (the outcome of getPublicIPv4 and
getPublicIPv6 against the fixed provider lists), the response of
getDNSRecords for a zone id and optional name-and-type filter, and the
response of updateDNSRecord for an issued call. -/
structure Env where
  ipv4 : Except IPDetectionError JStr
  ipv6 : Except IPDetectionError JStr
  getDNSRecords :
    JStr → Option (JStr × RecType) → Except CFError (List DNSRecord)
  updateDNSRecord : UpdateCall → Except CFError DNSRecord

/-- Step 1 of DNSUpdater.updateRecord: discovery for the configured
family, AAAA selecting IPv6 and anything else IPv4. -/
def discoveryFor (env : Env) (t : RecType) : Except IPDetectionError JStr :=
  match t with
  | RecType.AAAA => env.ipv6
  | _ => env.ipv4

/-- Embeds DNSUpdater.findDNSRecord: with a configured record id, fetch
the whole zone and select by id; otherwise fetch filtered by exact name
and type and take the first match; null when nothing matches. -/
def findDNSRecord (env : Env) (zoneId : JStr) (rc : RecordConfig) :
    Except CFError (Option DNSRecord) :=
  match rc.id with
  | some i =>
    match env.getDNSRecords zoneId none with
    | Except.error e => Except.error e
    | Except.ok records => Except.ok (records.find? (fun r => r.id = i))
  | none =>
    match env.getDNSRecords zoneId (some (rc.name, rc.type)) with
    | Except.error e => Except.error e
    | Except.ok records => Except.ok records.head?

/-- Result of one reconciliation of a target. -/
inductive UpdateOutcome where
  | updated
  | skipped
  deriving DecidableEq, Repr

/-- Embeds DNSUpdater.updateRecord.  The first component is the trace of
updateDNSRecord calls issued (also when the call itself fails); the second
is the returned outcome or the thrown error.  Steps: discovery, record
lookup, not-found check, normalised comparison, and the conditional write
preserving name and ttl and choosing proxied from the config when defined,
else from the existing record. -/
def updateRecord (env : Env) (zone : ZoneConfig) (rc : RecordConfig) :
    List UpdateCall × Except TargetError UpdateOutcome :=
  match discoveryFor env rc.type with
  | Except.error e => ([], Except.error (TargetError.detect e))
  | Except.ok currentIP =>
    match findDNSRecord env zone.zoneId rc with
    | Except.error e => ([], Except.error (TargetError.cf e))
    | Except.ok none =>
      ([], Except.error (TargetError.notFound rc.name rc.type zone.domain))
    | Except.ok (some existingRecord) =>
      let existingIP := normalizeIP existingRecord.content
      let newIP := normalizeIP currentIP
      if existingIP = newIP then ([], Except.ok UpdateOutcome.skipped)
      else
        let call : UpdateCall :=
          { zoneId := zone.zoneId, recordId := existingRecord.id,
            data :=
              { content := newIP, type := rc.type,
                name := some existingRecord.name,
                ttl := some existingRecord.ttl,
                proxied :=
                  some (rc.proxied.getD existingRecord.proxied) } }
        match env.updateDNSRecord call with
        | Except.error e => ([call], Except.error (TargetError.cf e))
        | Except.ok _ => ([call], Except.ok UpdateOutcome.updated)

/-- One line of the Summary update list. -/
structure UpdateResult where
  zone : JStr
  record : JStr
  oldIP : JStr
  newIP : JStr
  deriving DecidableEq, Repr

/-- One line of the Summary error list, with the message abstracted to
the captured error value. -/
structure ErrorResult where
  zone : JStr
  record : JStr
  error : TargetError
  deriving DecidableEq, Repr

/-- Embeds UpdateSummary of dnsUpdater.ts. -/
structure UpdateSummary where
  updates : List UpdateResult
  errors : List ErrorResult
  skipped : Nat
  total : Nat
  deriving DecidableEq, Repr

/-- Loop body of DNSUpdater.processZone for one record: total is bumped,
a skipped outcome bumps the skipped counter, an updated outcome changes
nothing further (the source comment claims the summary was already
updated, but no code appends to the update list), and a thrown error is
appended to the error list.  The issued calls are accumulated alongside. -/
def processRecord (env : Env) (zone : ZoneConfig)
    (acc : UpdateSummary × List UpdateCall) (rc : RecordConfig) :
    UpdateSummary × List UpdateCall :=
  let sum := acc.1
  let calls := acc.2
  let sum1 := { sum with total := sum.total + 1 }
  let step := updateRecord env zone rc
  match step.2 with
  | Except.ok UpdateOutcome.skipped =>
    ({ sum1 with skipped := sum1.skipped + 1 }, calls ++ step.1)
  | Except.ok UpdateOutcome.updated => (sum1, calls ++ step.1)
  | Except.error e =>
    ({ sum1 with
        errors := sum1.errors ++
          [{ zone := zone.domain, record := rc.name, error := e }] },
     calls ++ step.1)

/-- Embeds DNSUpdater.processZone. -/
def processZone (env : Env) (acc : UpdateSummary × List UpdateCall)
    (zone : ZoneConfig) : UpdateSummary × List UpdateCall :=
  zone.records.foldl (processRecord env zone) acc

/-- The empty summary that checkAndUpdateDNS starts from. -/
def emptySummary : UpdateSummary :=
  { updates := [], errors := [], skipped := 0, total := 0 }

/-- Embeds checkAndUpdateDNS of dnsUpdater.ts: every zone is processed in
order into one summary; per-target errors are captured, never
propagated. -/
def checkAndUpdateDNS (env : Env) (zones : List ZoneConfig) :
    UpdateSummary × List UpdateCall :=
  zones.foldl (processZone env) (emptySummary, [])

/-! ### worker.ts: retry classification, backoff, and the loop -/

/-- An error reaching the worker loop: cfError embeds CloudflareAPIError
(with its optional status code), genError any other Error, carrying its
message. -/
inductive JsError where
  | cfError (statusCode : Option Nat) (msg : JStr)
  | genError (msg : JStr)
  deriving DecidableEq, Repr

/-- True when pat occurs as a contiguous substring of l, as decided by
String.prototype.includes. -/
def containsSub (pat l : JStr) : Bool :=
  l.tails.any (fun t => pat.isPrefixOf t)

/-- The network error codes matched against the message in
isTransientError. -/
def networkErrorCodes : List JStr :=
  [s2l "ECONNREFUSED", s2l "ENOTFOUND", s2l "ETIMEDOUT", s2l "ECONNRESET"]

/-- Embeds isTransientError of worker.ts.  A CloudflareAPIError is
retryable exactly when its status code is present and at least 500, or
equals 429 (a falsy status code of 0 fails the first guard and 0 is not
429, so the branch arms coincide with this reading); the message check is
never reached for it.  Any other Error is retryable exactly when its
message contains one of the four network error codes. -/
def isTransientError : JsError → Bool
  | JsError.cfError sc _ =>
    match sc with
    | some s => decide (500 ≤ s) || decide (s = 429)
    | none => false
  | JsError.genError msg =>
    networkErrorCodes.any (fun e => containsSub e msg)

/-- Loop body of retryWithBackoff of worker.ts, with remaining counting
the attempts still allowed (attempt runs 1..maxRetries in the source).
The second component records the delays slept between attempts, each
computed as Math.pow(2, attempt) * 1000 and only slept when the failed
attempt was not the last one.  lastE holds the source lastError binding. -/
def retryGo {α : Type} (fn : Nat → Except JsError α) (maxRetries : Nat)
    (attempt : Nat) (lastE : JsError) :
    Nat → Except JsError α × List Nat
  | 0 => (Except.error lastE, [])
  | r + 1 =>
    match fn attempt with
    | Except.ok v => (Except.ok v, [])
    | Except.error e =>
      if isTransientError e then
        let next := retryGo fn maxRetries (attempt + 1) e r
        if attempt < maxRetries then
          (next.1, (2 ^ attempt * 1000) :: next.2)
        else (next.1, next.2)
      else (Except.error e, [])

/-- Embeds retryWithBackoff of worker.ts (default maxRetries 3): at most
maxRetries attempts, a non-transient failure aborts immediately, and the
delay trace is returned for inspection.  The placeholder error stands for
the undefined lastError of the degenerate maxRetries = 0 case, which the
worker never uses. -/
def retryWithBackoff {α : Type} (fn : Nat → Except JsError α)
    (maxRetries : Nat) : Except JsError α × List Nat :=
  retryGo fn maxRetries 1 (JsError.genError []) maxRetries

/-- Embeds WorkerState of worker.ts, timestamps as abstract Nat clock
readings. -/
structure WorkerState where
  isRunning : Bool
  checkCount : Nat
  consecutiveErrors : Nat
  lastSuccessfulCheck : Option Nat
  lastCheckTime : Option Nat
  lastUpdateCount : Option Nat
  deriving DecidableEq, Repr

/-- The shutdown reasons routed through handleShutdown. -/
inductive ShutdownSignal where
  | CRITICAL
  | AUTH_ERROR
  | SIGTERM
  | SIGINT
  deriving DecidableEq, Repr

/-- Embeds the exit status chosen by handleShutdown: 1 for CRITICAL and
AUTH_ERROR, 0 otherwise. -/
def exitCode (s : ShutdownSignal) : Nat :=
  match s with
  | ShutdownSignal.CRITICAL => 1
  | ShutdownSignal.AUTH_ERROR => 1
  | _ => 0

/-- Embeds the result handling of performDNSCheck (worker.ts lines
155-220): on a returned summary the consecutive-error counter resets, the
last-success timestamp advances and the update count is recorded, with no
shutdown; on a thrown error the counter is incremented, the
failure-ceiling of 10 is checked first (CRITICAL shutdown), then an
authentication status of 401 or 403 forces AUTH_ERROR shutdown; any other
failure leaves the loop running. -/
def handlePassResult (st : WorkerState) (now : Nat) :
    Except JsError UpdateSummary → WorkerState × Option ShutdownSignal
  | Except.ok summary =>
    ({ st with
        consecutiveErrors := 0
        lastSuccessfulCheck := some now
        lastUpdateCount := some summary.updates.length }, none)
  | Except.error e =>
    let ce := st.consecutiveErrors + 1
    let st1 := { st with consecutiveErrors := ce }
    if 10 ≤ ce then (st1, some ShutdownSignal.CRITICAL)
    else
      match e with
      | JsError.cfError (some sc) _ =>
        if sc = 401 || sc = 403 then (st1, some ShutdownSignal.AUTH_ERROR)
        else (st1, none)
      | _ => (st1, none)

/-- Embeds one performDNSCheck invocation, parameterised by the pass
attempt body handed to retryWithBackoff (the source closure runs
checkAndUpdateDNS; the parameter also lets a scripted thrown error model
the exceptional case the scheduler guards against): the early return on a
stopped worker, the counter and timestamp bumps, the retry wrapper, and
the result handling. -/
def performDNSCheckWith (passAttempt : Nat → Except JsError UpdateSummary)
    (st : WorkerState) (now : Nat) : WorkerState × Option ShutdownSignal :=
  if !st.isRunning then (st, none)
  else
    let st1 := { st with
                  checkCount := st.checkCount + 1
                  lastCheckTime := some now }
    handlePassResult st1 now (retryWithBackoff passAttempt 3).1

/-- Embeds performDNSCheck as wired in the worker: the pass body is
checkAndUpdateDNS over the configured zones, which returns a summary and
never throws, so the retry wrapper sees a first-attempt success. -/
def performDNSCheck (env : Env) (zones : List ZoneConfig)
    (st : WorkerState) (now : Nat) : WorkerState × Option ShutdownSignal :=
  performDNSCheckWith (fun _ => Except.ok (checkAndUpdateDNS env zones).1)
    st now

/-! ### Auxiliary observers -/

/-- Boolean observer for a failed Except result. -/
def isErrE {ε α : Type} : Except ε α → Bool
  | Except.error _ => true
  | Except.ok _ => false

/-- The message a failing provider contributes to the exhaustion error
(unused placeholder on a succeeding provider). -/
def fetchErrMsg (p : Provider) : JStr :=
  match fetchProvider p with
  | Except.error m => m
  | Except.ok _ => []

/-! ### Spec-side predicates (written from the claim wording, for
refinement comparison against the embedded source functions) -/

/-- Formalises the C8 claim wording verbatim: the string consists of
exactly four dot-separated decimal groups, each an integer in the range
0 to 255, with no leading or trailing content. -/
def claimIPv4 (s : JStr) : Bool :=
  (splitOnCh 46 s).length = 4 &&
    (splitOnCh 46 s).all
      (fun g => !g.isEmpty && g.all isDigitCh && groupVal g ≤ 255)

/-- The amended C8 predicate: as claimIPv4, but each group is one to
three digits long (the anchored regex of the source bounds group length
at three, so a zero-padded four-digit group such as 0255 is rejected). -/
def claimIPv4Len (s : JStr) : Bool :=
  (splitOnCh 46 s).length = 4 &&
    (splitOnCh 46 s).all (fun g =>
      1 ≤ g.length && g.length ≤ 3 && g.all isDigitCh && groupVal g ≤ 255)

/-- The amended C3 classification, written from the corrected wording: a
provider error is retryable exactly when its status code is present and
at least 500 or equal to 429; any other error is retryable exactly when
its message names one of the four network error codes.  A provider error
with an absent status code is not retryable. -/
def retryableSpec (e : JsError) : Prop :=
  (∃ sc msg, e = JsError.cfError (some sc) msg ∧ (500 ≤ sc ∨ sc = 429)) ∨
  (∃ msg, e = JsError.genError msg ∧
    ∃ pat ∈ networkErrorCodes, containsSub pat msg = true)

/-! ### Concrete scenario inputs used by witnesses and counterexamples -/

/-- The record target of the end-to-end scenario of the spec: zone
example.com, subdomain www, type A, no operator proxy preference. -/
def rcWWW : RecordConfig :=
  { id := none, name := s2l "www.example.com", type := RecType.A,
    proxied := none }

/-- The zone of the end-to-end scenario. -/
def zoneWWW : ZoneConfig :=
  { zoneId := s2l "zone123", domain := s2l "example.com",
    records := [rcWWW] }

/-- The existing provider-side record of the end-to-end scenario. -/
def recWWW : DNSRecord :=
  { id := s2l "rec1", type := RecType.A, name := s2l "www.example.com",
    content := s2l "10.0.0.1", proxied := false, ttl := 300 }

/-- Environment of the end-to-end scenario: discovery finds 10.0.0.2,
the record lookup finds the existing record, the update succeeds. -/
def envHappy : Env :=
  { ipv4 := Except.ok (s2l "10.0.0.2")
    ipv6 := Except.error (IPDetectionError.exhausted 1 [])
    getDNSRecords := fun zid filt =>
      if zid = s2l "zone123" &&
          filt = some (s2l "www.example.com", RecType.A) then
        Except.ok [recWWW]
      else Except.ok []
    updateDNSRecord := fun c =>
      Except.ok { recWWW with content := c.data.content } }

/-- As envHappy but the discovered address equals the published one. -/
def envSkip : Env := { envHappy with ipv4 := Except.ok (s2l "10.0.0.1") }

/-- As envHappy but every record fetch is rejected with HTTP 401. -/
def env401 : Env :=
  { envHappy with
      getDNSRecords := fun _ _ =>
        Except.error { statusCode := some 401, msg := s2l "auth" } }

/-- As envHappy but the existing record is proxied. -/
def envProxied : Env :=
  { envHappy with
      getDNSRecords := fun _ _ => Except.ok [{ recWWW with proxied := true }] }

/-- As envHappy after the first pass has written 10.0.0.2: the record
lookup now returns the updated record. -/
def envSecond : Env :=
  { envHappy with
      getDNSRecords := fun _ _ =>
        Except.ok [{ recWWW with content := s2l "10.0.0.2" }] }

/-- The array-format record of the end-to-end scenario with the proxy
field absent from the configuration JSON. -/
def simpleWWW : SimpleRecordConfig :=
  { zone := s2l "example.com", subdomain := some (s2l "www"),
    proxy := JsVal.undef, type := some RecType.A }

/-- Fresh worker state at loop start. -/
def st0 : WorkerState :=
  { isRunning := true, checkCount := 0, consecutiveErrors := 0,
    lastSuccessfulCheck := none, lastCheckTime := none,
    lastUpdateCount := none }

/-- A server error as classified by the worker. -/
def e500 : JsError := JsError.cfError (some 500) (s2l "Server error")

/-- The request-timeout error raised by CloudflareClient.request: a
CloudflareAPIError constructed with a message only, its statusCode
absent. -/
def timeoutErr : JsError :=
  JsError.cfError none (s2l "Request timeout for PUT /zones")

/-! ## Lemmas about normalisation -/

theorem toLowerCh_idem (c : Nat) : toLowerCh (toLowerCh c) = toLowerCh c := by
  by_cases h : (65 ≤ c && c ≤ 90) = true
  · have h1 : toLowerCh c = c + 32 := by unfold toLowerCh; rw [if_pos h]
    rw [h1]
    unfold toLowerCh
    rw [if_neg]
    simp only [Bool.and_eq_true, decide_eq_true_eq] at h ⊢
    omega
  · have h1 : toLowerCh c = c := by unfold toLowerCh; rw [if_neg h]
    simp only [h1]

theorem isJsWs_toLowerCh (c : Nat) : isJsWs (toLowerCh c) = isJsWs c := by
  by_cases h : (65 ≤ c && c ≤ 90) = true
  · have h1 : toLowerCh c = c + 32 := by unfold toLowerCh; rw [if_pos h]
    simp only [Bool.and_eq_true, decide_eq_true_eq] at h
    have hL : isJsWs (c + 32) = false := by
      unfold isJsWs
      simp only [Bool.or_eq_false_iff, decide_eq_false_iff_not]
      omega
    have hR : isJsWs c = false := by
      unfold isJsWs
      simp only [Bool.or_eq_false_iff, decide_eq_false_iff_not]
      omega
    rw [h1, hL, hR]
  · have h1 : toLowerCh c = c := by unfold toLowerCh; rw [if_neg h]
    simp only [h1]

theorem dropWhile_head_false {p : Nat → Bool} {l : List Nat} {x : Nat}
    {xs : List Nat} (h : l.dropWhile p = x :: xs) : p x = false := by
  have hh := List.head?_dropWhile_not p l
  rw [h] at hh
  exact hh

theorem dropWhile_idem (p : Nat → Bool) (l : List Nat) :
    (l.dropWhile p).dropWhile p = l.dropWhile p := by
  cases h : l.dropWhile p with
  | nil => simp
  | cons x xs =>
    have hx := dropWhile_head_false h
    simp [List.dropWhile_cons, hx]

theorem dropWhile_prefix_self {p : Nat → Bool} {q l : List Nat}
    (h : q <+: l.dropWhile p) : q.dropWhile p = q := by
  cases q with
  | nil => simp
  | cons x xs =>
    obtain ⟨t, ht⟩ := h
    have hx : p x = false := dropWhile_head_false (l := l) ht.symm
    simp [List.dropWhile_cons, hx]

theorem trim_subfront (l : List Nat) : trimJs l <+: l.dropWhile isJsWs := by
  unfold trimJs
  rw [← List.reverse_suffix, List.reverse_reverse]
  exact List.dropWhile_suffix _

theorem trim_idem (l : List Nat) : trimJs (trimJs l) = trimJs l := by
  have h1 : (trimJs l).dropWhile isJsWs = trimJs l :=
    dropWhile_prefix_self (trim_subfront l)
  show (((trimJs l).dropWhile isJsWs).reverse.dropWhile isJsWs).reverse
      = trimJs l
  rw [h1]
  unfold trimJs
  rw [List.reverse_reverse, dropWhile_idem]

theorem trim_map_lower (l : List Nat) :
    trimJs (l.map toLowerCh) = (trimJs l).map toLowerCh := by
  have hw : (isJsWs ∘ toLowerCh) = isJsWs := funext isJsWs_toLowerCh
  unfold trimJs
  rw [List.dropWhile_map, hw, ← List.map_reverse, List.dropWhile_map, hw,
    ← List.map_reverse]

theorem normalizeIP_idem (l : JStr) :
    normalizeIP (normalizeIP l) = normalizeIP l := by
  unfold normalizeIP toLowerJs
  rw [trim_map_lower, trim_idem, List.map_map]
  congr 1
  funext c
  exact toLowerCh_idem c

/-! ## Lemmas about the retry wrapper -/

theorem retry_first_ok {α : Type} (fn : Nat → Except JsError α) (v : α)
    (h : fn 1 = Except.ok v) : retryWithBackoff fn 3 = (Except.ok v, []) := by
  simp [retryWithBackoff, retryGo, h]

theorem retry_nontransient {α : Type} (fn : Nat → Except JsError α)
    (e : JsError) (h : fn 1 = Except.error e)
    (ht : isTransientError e = false) :
    retryWithBackoff fn 3 = (Except.error e, []) := by
  simp [retryWithBackoff, retryGo, h, ht]

/-! ## Lemmas about the reconciliation fold -/

theorem fold_records_allfail (env : Env) (zone : ZoneConfig)
    (l : List RecordConfig) (acc : UpdateSummary × List UpdateCall)
    (h : ∀ rc ∈ l, isErrE (updateRecord env zone rc).2 = true) :
    (l.foldl (processRecord env zone) acc).1.updates = acc.1.updates ∧
    (l.foldl (processRecord env zone) acc).1.skipped = acc.1.skipped ∧
    (l.foldl (processRecord env zone) acc).1.total = acc.1.total + l.length ∧
    (l.foldl (processRecord env zone) acc).1.errors.length
      = acc.1.errors.length + l.length := by
  induction l generalizing acc with
  | nil => simp
  | cons rc rest ih =>
    have hrc := h rc (by simp)
    obtain ⟨e, hcase⟩ : ∃ e, (updateRecord env zone rc).2 = Except.error e := by
      cases hc : (updateRecord env zone rc).2 with
      | error e => exact ⟨e, rfl⟩
      | ok o => rw [hc] at hrc; simp [isErrE] at hrc
    have hstep :
        (processRecord env zone acc rc).1.updates = acc.1.updates ∧
        (processRecord env zone acc rc).1.skipped = acc.1.skipped ∧
        (processRecord env zone acc rc).1.total = acc.1.total + 1 ∧
        (processRecord env zone acc rc).1.errors.length
          = acc.1.errors.length + 1 := by
      simp [processRecord, hcase]
    have hrest : ∀ r ∈ rest, isErrE (updateRecord env zone r).2 = true :=
      fun r hr => h r (by simp [hr])
    have ihs := ih (processRecord env zone acc rc) hrest
    rw [List.foldl_cons]
    refine ⟨ihs.1.trans hstep.1, ihs.2.1.trans hstep.2.1, ?_, ?_⟩
    · rw [ihs.2.2.1, hstep.2.2.1]
      simp only [List.length_cons]
      omega
    · rw [ihs.2.2.2, hstep.2.2.2]
      simp only [List.length_cons]
      omega

theorem fold_zones_allfail (env : Env) (zones : List ZoneConfig)
    (acc : UpdateSummary × List UpdateCall)
    (h : ∀ z ∈ zones, ∀ rc ∈ z.records,
      isErrE (updateRecord env z rc).2 = true) :
    (zones.foldl (processZone env) acc).1.updates = acc.1.updates ∧
    (zones.foldl (processZone env) acc).1.skipped = acc.1.skipped ∧
    (zones.foldl (processZone env) acc).1.errors.length + acc.1.total
      = acc.1.errors.length + (zones.foldl (processZone env) acc).1.total := by
  induction zones generalizing acc with
  | nil => simp
  | cons z rest ih =>
    have hz := fold_records_allfail env z z.records acc (h z (by simp))
    have hrest : ∀ w ∈ rest, ∀ rc ∈ w.records,
        isErrE (updateRecord env w rc).2 = true :=
      fun w hw => h w (by simp [hw])
    have ihs := ih (processZone env acc z) hrest
    rw [List.foldl_cons]
    have hz1 : (processZone env acc z).1.updates = acc.1.updates := hz.1
    have hz2 : (processZone env acc z).1.skipped = acc.1.skipped := hz.2.1
    have hz3 : (processZone env acc z).1.total = acc.1.total + z.records.length :=
      hz.2.2.1
    have hz4 : (processZone env acc z).1.errors.length
        = acc.1.errors.length + z.records.length := hz.2.2.2
    refine ⟨ihs.1.trans hz1, ihs.2.1.trans hz2, ?_⟩
    have := ihs.2.2
    omega

/-! ## Lemmas about provider iteration -/

theorem tryAux_ok (pre : List Provider) :
    ∀ (errs : List JStr) (p : Provider) (post : List Provider) (v : JStr),
    (∀ q ∈ pre, isErrE (fetchProvider q) = true) →
    fetchProvider p = Except.ok v →
    tryProvidersAux errs (pre ++ p :: post) = Except.ok v := by
  induction pre with
  | nil =>
    intro errs p post v _ hp
    simp [tryProvidersAux, hp]
  | cons q rest ih =>
    intro errs p post v hfail hp
    have hq := hfail q (by simp)
    obtain ⟨m, hm⟩ : ∃ m, fetchProvider q = Except.error m := by
      cases hc : fetchProvider q with
      | error m => exact ⟨m, rfl⟩
      | ok _ => rw [hc] at hq; simp [isErrE] at hq
    simp only [List.cons_append, tryProvidersAux]
    rw [hm]
    exact ih _ p post v (fun r hr => hfail r (by simp [hr])) hp

theorem tryAux_fail :
    ∀ (ps : List Provider) (errs : List JStr),
    (∀ q ∈ ps, isErrE (fetchProvider q) = true) →
    tryProvidersAux errs ps =
      Except.error (IPDetectionError.exhausted (errs.length + ps.length)
        (errs ++ ps.map fetchErrMsg)) := by
  intro ps
  induction ps with
  | nil =>
    intro errs _
    simp [tryProvidersAux]
  | cons q rest ih =>
    intro errs hfail
    have hq := hfail q (by simp)
    obtain ⟨m, hm⟩ : ∃ m, fetchProvider q = Except.error m := by
      cases hc : fetchProvider q with
      | error m => exact ⟨m, rfl⟩
      | ok _ => rw [hc] at hq; simp [isErrE] at hq
    simp only [tryProvidersAux]
    rw [hm]
    show tryProvidersAux (errs ++ [m]) rest = _
    rw [ih (errs ++ [m]) (fun r hr => hfail r (by simp [hr]))]
    have hmsg : fetchErrMsg q = m := by unfold fetchErrMsg; rw [hm]
    have hlen : (errs ++ [m]).length + rest.length
        = errs.length + (q :: rest).length := by simp; omega
    have hcat : (errs ++ [m]) ++ rest.map fetchErrMsg
        = errs ++ (q :: rest).map fetchErrMsg := by
      simp [hmsg]
    rw [hlen, hcat]

/-! ## Lemmas about splitting and the IPv4 matcher -/

theorem all_takeWhile (p : Nat → Bool) (l : List Nat) :
    (l.takeWhile p).all p = true := by
  induction l with
  | nil => rfl
  | cons x xs ih =>
    rw [List.takeWhile_cons]
    cases h : p x with
    | true => simp [h, ih]
    | false => simp [h]

theorem digit_ne_dot {c : Nat} (h : isDigitCh c = true) : c ≠ 46 := by
  unfold isDigitCh at h
  simp only [Bool.or_eq_true, Bool.and_eq_true, decide_eq_true_eq] at h
  omega

theorem splitOnCh_ne_nil (d : Nat) (s : JStr) : splitOnCh d s ≠ [] := by
  induction s with
  | nil => simp [splitOnCh]
  | cons c rest ih =>
    unfold splitOnCh
    by_cases h : c = d
    · simp [h]
    · simp only [if_neg h]
      cases hr : splitOnCh d rest with
      | nil => simp
      | cons g gs => simp

theorem splitOnCh_no_sep (d : Nat) (s : JStr) (h : ∀ c ∈ s, c ≠ d) :
    splitOnCh d s = [s] := by
  induction s with
  | nil => rfl
  | cons c rest ih =>
    have hc : c ≠ d := h c (by simp)
    have hrest := ih (fun x hx => h x (by simp [hx]))
    unfold splitOnCh
    rw [if_neg hc, hrest]

theorem splitOnCh_append (d : Nat) (a b : JStr) (h : ∀ c ∈ a, c ≠ d) :
    splitOnCh d (a ++ d :: b) = a :: splitOnCh d b := by
  induction a with
  | nil =>
    simp only [List.nil_append]
    simp only [splitOnCh]
    simp
  | cons c rest ih =>
    have hc : c ≠ d := h c (by simp)
    have hr := ih (fun x hx => h x (by simp [hx]))
    simp only [List.cons_append]
    simp only [splitOnCh]
    rw [if_neg hc, hr]

theorem splitOnCh_singleton (d : Nat) :
    ∀ (s g : JStr), splitOnCh d s = [g] → s = g := by
  intro s
  induction s with
  | nil =>
    intro g h
    simp [splitOnCh] at h
    exact h.symm
  | cons c rest ih =>
    intro g h
    unfold splitOnCh at h
    by_cases hc : c = d
    · rw [if_pos hc] at h
      cases hsp : splitOnCh d rest with
      | nil => exact absurd hsp (splitOnCh_ne_nil d rest)
      | cons a as => rw [hsp] at h; simp at h
    · rw [if_neg hc] at h
      cases hsp : splitOnCh d rest with
      | nil => exact absurd hsp (splitOnCh_ne_nil d rest)
      | cons a as =>
        rw [hsp] at h
        have h2 := List.cons.inj h
        have has : as = [] := h2.2.symm ▸ rfl
        have hrest : rest = a := by
          apply ih
          rw [hsp, has]
        rw [hrest, h2.1]

theorem splitOnCh_cons_inv (d : Nat) :
    ∀ (s g g2 : JStr) (gs : List JStr),
    splitOnCh d s = g :: g2 :: gs →
    ∃ t, s = g ++ d :: t ∧ splitOnCh d t = g2 :: gs := by
  intro s
  induction s with
  | nil =>
    intro g g2 gs h
    simp [splitOnCh] at h
  | cons c rest ih =>
    intro g g2 gs h
    unfold splitOnCh at h
    by_cases hc : c = d
    · rw [if_pos hc] at h
      have h2 := List.cons.inj h
      refine ⟨rest, ?_, ?_⟩
      · rw [← h2.1, hc]
        rfl
      · exact h2.2
    · rw [if_neg hc] at h
      cases hsp : splitOnCh d rest with
      | nil => exact absurd hsp (splitOnCh_ne_nil d rest)
      | cons a as =>
        rw [hsp] at h
        have h2 := List.cons.inj h
        obtain ⟨t, ht1, ht2⟩ := ih a g2 gs (by rw [hsp, h2.2])
        refine ⟨t, ?_, ht2⟩
        rw [← h2.1, ht1]
        rfl

theorem takeWhile_all_append {p : Nat → Bool} {g : JStr}
    (hg : g.all p = true) {c : Nat} (hc : p c = false) (t : JStr) :
    (g ++ c :: t).takeWhile p = g ∧ (g ++ c :: t).dropWhile p = c :: t := by
  induction g with
  | nil => simp [List.takeWhile_cons, List.dropWhile_cons, hc]
  | cons x xs ih =>
    simp only [List.all_cons, Bool.and_eq_true] at hg
    have hx := hg.1
    have hrec := ih hg.2
    simp only [List.cons_append, List.takeWhile_cons, List.dropWhile_cons,
      hx, if_pos]
    exact ⟨by rw [hrec.1], by rw [hrec.2]⟩

theorem takeWhile_all_self {p : Nat → Bool} {g : JStr}
    (hg : g.all p = true) :
    g.takeWhile p = g ∧ g.dropWhile p = [] := by
  induction g with
  | nil => simp
  | cons x xs ih =>
    simp only [List.all_cons, Bool.and_eq_true] at hg
    have hrec := ih hg.2
    simp only [List.takeWhile_cons, List.dropWhile_cons, hg.1, if_pos]
    exact ⟨by rw [hrec.1], hrec.2⟩

theorem matchGroup_inv {s g rest : JStr}
    (h : matchGroup s = some (g, rest)) :
    s = g ++ rest ∧ g.all isDigitCh = true ∧ 1 ≤ g.length ∧ g.length ≤ 3 := by
  unfold matchGroup at h
  by_cases hc :
      (1 ≤ (s.takeWhile isDigitCh).length &&
        (s.takeWhile isDigitCh).length ≤ 3) = true
  · rw [if_pos hc] at h
    have h2 := Prod.mk.injEq .. ▸ Option.some.inj h
    obtain ⟨hg, hrest⟩ : s.takeWhile isDigitCh = g ∧ s.dropWhile isDigitCh = rest := by
      constructor
      · exact congrArg Prod.fst (Option.some.inj h)
      · exact congrArg Prod.snd (Option.some.inj h)
    simp only [Bool.and_eq_true, decide_eq_true_eq] at hc
    refine ⟨?_, ?_, ?_, ?_⟩
    · rw [← hg, ← hrest, List.takeWhile_append_dropWhile]
    · rw [← hg]; exact all_takeWhile _ _
    · rw [← hg]; exact hc.1
    · rw [← hg]; exact hc.2
  · rw [if_neg hc] at h
    cases h

theorem matchGroup_of_append {g : JStr} (hg : g.all isDigitCh = true)
    (h1 : 1 ≤ g.length) (h3 : g.length ≤ 3) (t : JStr) :
    matchGroup (g ++ 46 :: t) = some (g, 46 :: t) := by
  have h46 : isDigitCh 46 = false := by decide
  obtain ⟨ht, hd⟩ := takeWhile_all_append hg h46 t
  unfold matchGroup
  rw [ht, hd, if_pos]
  simp only [Bool.and_eq_true, decide_eq_true_eq]
  exact ⟨h1, h3⟩

theorem matchGroup_of_self {g : JStr} (hg : g.all isDigitCh = true)
    (h1 : 1 ≤ g.length) (h3 : g.length ≤ 3) :
    matchGroup g = some (g, []) := by
  obtain ⟨ht, hd⟩ := takeWhile_all_self hg
  unfold matchGroup
  rw [ht, hd, if_pos]
  simp only [Bool.and_eq_true, decide_eq_true_eq]
  exact ⟨h1, h3⟩

theorem allBool_and {α : Type} (A B : α → Bool) (l : List α) :
    l.all (fun g => A g && B g) = (l.all A && l.all B) := by
  induction l with
  | nil => rfl
  | cons x xs ih =>
    cases hA : A x <;> cases hB : B x <;>
      simp [List.all_cons, hA, hB, ih]

theorem matchGroups_sound :
    ∀ (n : Nat) (s : JStr) (gs : List JStr),
    matchGroups (n + 1) s = some gs →
    splitOnCh 46 s = gs ∧ gs.length = n + 1 ∧
      gs.all (fun g =>
        1 ≤ g.length && g.length ≤ 3 && g.all isDigitCh) = true := by
  intro n
  induction n with
  | zero =>
    intro s gs h
    simp only [matchGroups] at h
    cases hm : matchGroup s with
    | none => rw [hm] at h; simp at h
    | some pr =>
      obtain ⟨g, rest⟩ := pr
      rw [hm] at h
      cases rest with
      | nil =>
        simp only [] at h
        have hgs : gs = [g] := by
          cases h
          rfl
        obtain ⟨hs, hall, h1, h3⟩ := matchGroup_inv hm
        subst hgs
        have hs' : s = g := by rw [hs, List.append_nil]
        refine ⟨?_, rfl, ?_⟩
        · rw [hs']
          exact splitOnCh_no_sep 46 g
            (fun c hc => digit_ne_dot (List.all_eq_true.mp hall c hc))
        · simp [hall, h1, h3]
      | cons c rest2 => simp at h
  | succ m ih =>
    intro s gs h
    simp only [matchGroups] at h
    cases hm : matchGroup s with
    | none => rw [hm] at h; simp at h
    | some pr =>
      obtain ⟨g, rest⟩ := pr
      rw [hm] at h
      cases rest with
      | nil => simp at h
      | cons c rest2 =>
        have h' : (if c = 46 then
            (matchGroups (m + 1) rest2).map (g :: ·) else none) = some gs := h
        by_cases hc : c = 46
        · rw [if_pos hc] at h'
          cases hmg : matchGroups (m + 1) rest2 with
          | none => rw [hmg] at h'; simp at h'
          | some gs' =>
            rw [hmg] at h'
            simp only [Option.map_some'] at h'
            have hgs : gs = g :: gs' := by
              cases h'
              rfl
            obtain ⟨hs, hall, h1, h3⟩ := matchGroup_inv hm
            obtain ⟨hsplit2, hlen2, hall2⟩ := ih rest2 gs' hmg
            subst hgs
            subst hc
            refine ⟨?_, ?_, ?_⟩
            · rw [hs,
                splitOnCh_append 46 g rest2
                  (fun x hx => digit_ne_dot (List.all_eq_true.mp hall x hx)),
                hsplit2]
            · simp [hlen2]
            · simp [hall, h1, h3, hall2]
        · rw [if_neg hc] at h'
          simp at h'

theorem matchGroups_complete :
    ∀ (n : Nat) (s : JStr) (gs : List JStr),
    splitOnCh 46 s = gs → gs.length = n + 1 →
    gs.all (fun g =>
      1 ≤ g.length && g.length ≤ 3 && g.all isDigitCh) = true →
    matchGroups (n + 1) s = some gs := by
  intro n
  induction n with
  | zero =>
    intro s gs hsplit hlen hall
    obtain ⟨g, hg⟩ : ∃ g, gs = [g] := by
      cases gs with
      | nil => simp at hlen
      | cons a as =>
        cases as with
        | nil => exact ⟨a, rfl⟩
        | cons b bs => simp at hlen
    subst hg
    have hs : s = g := splitOnCh_singleton 46 s g hsplit
    simp only [List.all_cons, List.all_nil, Bool.and_true,
      Bool.and_eq_true, decide_eq_true_eq] at hall
    subst hs
    simp only [matchGroups]
    rw [matchGroup_of_self hall.2 hall.1.1 hall.1.2]
  | succ m ih =>
    intro s gs hsplit hlen hall
    obtain ⟨g, g2, rest, hg⟩ : ∃ g g2 rest, gs = g :: g2 :: rest := by
      cases gs with
      | nil => simp at hlen
      | cons a as =>
        cases as with
        | nil => simp at hlen
        | cons b bs => exact ⟨a, b, bs, rfl⟩
    subst hg
    obtain ⟨t, ht, ht2⟩ := splitOnCh_cons_inv 46 s g g2 rest hsplit
    have hallg : (1 ≤ g.length && g.length ≤ 3 && g.all isDigitCh) = true := by
      simp only [List.all_cons, Bool.and_eq_true] at hall
      simp [hall.1]
    have halltail :
        (g2 :: rest).all (fun g =>
          1 ≤ g.length && g.length ≤ 3 && g.all isDigitCh) = true := by
      simp only [List.all_cons, Bool.and_eq_true] at hall ⊢
      exact hall.2
    simp only [Bool.and_eq_true, decide_eq_true_eq] at hallg
    subst ht
    simp only [matchGroups]
    rw [matchGroup_of_append hallg.2 hallg.1.1 hallg.1.2 t]
    show (if (46 : Nat) = 46 then
        (matchGroups (m + 1) t).map (g :: ·) else none)
      = some (g :: g2 :: rest)
    rw [if_pos rfl,
      ih t (g2 :: rest) ht2 (by simpa using hlen) halltail]
    rfl

/-! ## Lemmas about one reconciliation step -/

theorem updateRecord_skip_of_eq (env : Env) (zone : ZoneConfig)
    (rc : RecordConfig) (er : DNSRecord) (ip : JStr)
    (hd : discoveryFor env rc.type = Except.ok ip)
    (hf : findDNSRecord env zone.zoneId rc = Except.ok (some er))
    (hn : normalizeIP er.content = normalizeIP ip) :
    updateRecord env zone rc = ([], Except.ok UpdateOutcome.skipped) := by
  simp [updateRecord, hd, hf, hn]

theorem updateRecord_write_of_ne (env : Env) (zone : ZoneConfig)
    (rc : RecordConfig) (er : DNSRecord) (ip : JStr)
    (hd : discoveryFor env rc.type = Except.ok ip)
    (hf : findDNSRecord env zone.zoneId rc = Except.ok (some er))
    (hn : normalizeIP er.content ≠ normalizeIP ip) :
    (updateRecord env zone rc).1 =
      [{ zoneId := zone.zoneId, recordId := er.id,
         data :=
           { content := normalizeIP ip, type := rc.type,
             name := some er.name, ttl := some er.ttl,
             proxied := some (rc.proxied.getD er.proxied) } }] := by
  cases henv : env.updateDNSRecord
      { zoneId := zone.zoneId, recordId := er.id,
        data :=
          { content := normalizeIP ip, type := rc.type,
            name := some er.name, ttl := some er.ttl,
            proxied := some (rc.proxied.getD er.proxied) } } with
  | error e => simp [updateRecord, hd, hf, hn, henv]
  | ok r => simp [updateRecord, hd, hf, hn, henv]

/-! ## Claim theorems -/

/-- C1 (code bug): in the end-to-end scenario of the spec (existing
record content 10.0.0.1, discovered address 10.0.0.2, update call
accepted), the reconciliation succeeds and issues exactly one provider
write carrying 10.0.0.2, yet the returned Summary has an empty update
list with total 1, skipped 0 and no errors, so the claimed accounting
equation total = updates + skipped + failed does not hold: nothing in
processZone ever appends to the update list, contradicting its own
comment and the Summary consumers in the worker. -/
theorem C1_summary_accounting :
    (updateRecord envHappy zoneWWW rcWWW).2 = Except.ok UpdateOutcome.updated ∧
    ((checkAndUpdateDNS envHappy [zoneWWW]).2.map
      (fun c => c.data.content)) = [s2l "10.0.0.2"] ∧
    (checkAndUpdateDNS envHappy [zoneWWW]).1 =
      { updates := [], errors := [], skipped := 0, total := 1 } ∧
    (checkAndUpdateDNS envHappy [zoneWWW]).1.total ≠
      (checkAndUpdateDNS envHappy [zoneWWW]).1.updates.length +
        (checkAndUpdateDNS envHappy [zoneWWW]).1.skipped +
        (checkAndUpdateDNS envHappy [zoneWWW]).1.errors.length := by
  refine ⟨by decide, by decide, by decide, by decide⟩

/-- C2 counterexample: the example the claim gives — a single target
whose DNS-record fetch is rejected with 401 — does not make the pass
fail at all: the 401 is captured as a per-target error in the Summary,
the pass counts as successful, the consecutive-failure counter resets to
0, and no shutdown is triggered, contradicting the claimed transition to
fatal shutdown. -/
theorem C2_target_auth_no_shutdown :
    (performDNSCheck env401 [zoneWWW] st0 5).2 = none ∧
    (performDNSCheck env401 [zoneWWW] st0 5).1.consecutiveErrors = 0 ∧
    (checkAndUpdateDNS env401 [zoneWWW]).1.errors.length = 1 := by
  refine ⟨by decide, by decide, by decide⟩

/-- C2 (amended): when the pass itself fails — the reconciliation call
handed to the retry wrapper rejects — with a provider error carrying
status 401 or 403, the loop shuts down with exit status 1 whatever the
consecutive-failure counter holds (through the AUTH_ERROR route below
the ceiling, through the CRITICAL route at it), without waiting for
further failures; a single target having its record fetch or update
rejected with 401 does not fail the pass and triggers no shutdown. -/
theorem C2_pass_auth_fatal (st : WorkerState) (now sc : Nat) (msg : JStr)
    (hrun : st.isRunning = true) (hsc : sc = 401 ∨ sc = 403) :
    ∃ sig, (performDNSCheckWith
        (fun _ => Except.error (JsError.cfError (some sc) msg)) st now).2
        = some sig ∧ exitCode sig = 1 := by
  have htrans : isTransientError (JsError.cfError (some sc) msg) = false := by
    rcases hsc with rfl | rfl <;> rfl
  have hretry := retry_nontransient (α := UpdateSummary)
    (fun _ => Except.error (JsError.cfError (some sc) msg))
    (JsError.cfError (some sc) msg) rfl htrans
  have hstep : performDNSCheckWith
      (fun _ => Except.error (JsError.cfError (some sc) msg)) st now
      = handlePassResult
          { st with
            checkCount := st.checkCount + 1
            lastCheckTime := some now } now
          (Except.error (JsError.cfError (some sc) msg)) := by
    unfold performDNSCheckWith
    rw [hrun, hretry]
    rfl
  rw [hstep]
  unfold handlePassResult
  by_cases hce : 10 ≤ st.consecutiveErrors + 1
  · refine ⟨ShutdownSignal.CRITICAL, ?_, rfl⟩
    simp [hce]
  · refine ⟨ShutdownSignal.AUTH_ERROR, ?_, rfl⟩
    have hsc2 : (decide (sc = 401) || decide (sc = 403)) = true := by
      rcases hsc with rfl | rfl <;> simp
    simp [hce, hsc2]

/-- C2 witness: counter at 0, one 401 pass failure, fatal exit 1. -/
theorem C2_pass_auth_fatal_witness :
    ∃ sig, (performDNSCheckWith
        (fun _ => Except.error (JsError.cfError (some 401)
          (s2l "Unauthorized"))) st0 7).2
        = some sig ∧ exitCode sig = 1 :=
  C2_pass_auth_fatal st0 7 401 (s2l "Unauthorized") rfl (Or.inl rfl)

/-- C3 counterexample: the request-timeout error raised by the provider
client carries no status code, and isTransientError classifies it as NOT
retryable — the retry wrapper aborts after the first attempt with no
delay — whereas the claim says a status-absent provider error (in
particular a request timeout) is retryable and triggers another
attempt. -/
theorem C3_timeout_not_retried :
    isTransientError timeoutErr = false ∧
    retryWithBackoff (fun _ => (Except.error timeoutErr :
      Except JsError UpdateSummary)) 3 = (Except.error timeoutErr, []) :=
  ⟨rfl, retry_nontransient _ _ rfl rfl⟩

/-- C3 (amended): a failure is retryable exactly when it is a provider
error whose status code is present and at least 500 or equal to 429, or
a non-provider error whose message contains one of ECONNREFUSED,
ENOTFOUND, ETIMEDOUT, ECONNRESET; a provider error with an absent status
code — including the request-timeout error the provider client raises —
is not retryable, and any non-retryable first failure aborts the retry
wrapper immediately with no delay. -/
theorem C3_retryable_classification :
    (∀ e, isTransientError e = true ↔ retryableSpec e) ∧
    (∀ (fn : Nat → Except JsError UpdateSummary) (e : JsError),
      fn 1 = Except.error e → isTransientError e = false →
      retryWithBackoff fn 3 = (Except.error e, [])) := by
  constructor
  · intro e
    constructor
    · intro h
      cases e with
      | cfError sc msg =>
        cases sc with
        | none => simp [isTransientError] at h
        | some s =>
          left
          refine ⟨s, msg, rfl, ?_⟩
          simpa [isTransientError] using h
      | genError msg =>
        right
        refine ⟨msg, rfl, ?_⟩
        simpa [isTransientError, List.any_eq_true] using h
    · intro h
      rcases h with ⟨sc, msg, rfl, hsc⟩ | ⟨msg, rfl, pat, hpat, hsub⟩
      · simpa [isTransientError] using hsc
      · simp only [isTransientError, List.any_eq_true]
        exact ⟨pat, hpat, hsub⟩
  · exact retry_nontransient

/-- C3 witness: a 503 is retryable per the amended classification, and a
404 first failure aborts the wrapper at once. -/
theorem C3_witness :
    isTransientError (JsError.cfError (some 503) []) = true ∧
    retryWithBackoff (fun _ => (Except.error (JsError.cfError (some 404) []) :
      Except JsError UpdateSummary)) 3
      = (Except.error (JsError.cfError (some 404) []), []) :=
  ⟨(C3_retryable_classification.1 _).mpr
      (Or.inl ⟨503, [], rfl, Or.inl (by omega)⟩),
    C3_retryable_classification.2 _ _ rfl (by decide)⟩

/-- C4 (code bug): with a retryable server error on every attempt, the
retry wrapper makes its 3 attempts but the slept delays are 2000 ms then
4000 ms — Math.pow(2, attempt) for attempt starting at 1 — not the
1s, 2s, 4s sequence stated by the claim, by the inline comment on the
delay computation, and by the changelog. -/
theorem C4_backoff_delays :
    retryWithBackoff (fun _ => (Except.error e500 :
      Except JsError UpdateSummary)) 3 = (Except.error e500, [2000, 4000]) ∧
    [2000, 4000] ≠ [1000, 2000, 4000] := by
  refine ⟨rfl, by decide⟩

/-- C5: a target whose discovered address equals the existing record
content after normalisation (trim and lower-case, so comparison is
case-insensitive) reconciles to skipped with an empty write trace: no
updateRecord call reaches the provider. -/
theorem C5_skip_no_write (env : Env) (zone : ZoneConfig)
    (rc : RecordConfig) (er : DNSRecord) (ip : JStr)
    (hd : discoveryFor env rc.type = Except.ok ip)
    (hf : findDNSRecord env zone.zoneId rc = Except.ok (some er))
    (hn : normalizeIP er.content = normalizeIP ip) :
    updateRecord env zone rc = ([], Except.ok UpdateOutcome.skipped) :=
  updateRecord_skip_of_eq env zone rc er ip hd hf hn

/-- C5 witness: unchanged address, outcome skipped, zero writes. -/
theorem C5_witness :
    updateRecord envSkip zoneWWW rcWWW
      = ([], Except.ok UpdateOutcome.skipped) :=
  C5_skip_no_write envSkip zoneWWW rcWWW recWWW (s2l "10.0.0.1")
    (by decide) (by decide) (by decide)

/-- C6 counterexample: a target declared in the array configuration with
no proxy field is loaded with an explicit proxied flag of false, so
against an existing record with proxied true the issued update carries
proxied false — the proxy state is flipped although the operator
expressed no preference, contradicting the claim for
configuration-loaded targets. -/
theorem C6_proxied_flipped :
    buildRecordConfig simpleWWW =
      { id := none, name := s2l "www.example.com", type := RecType.A,
        proxied := some false } ∧
    ((updateRecord envProxied zoneWWW (buildRecordConfig simpleWWW)).1.map
      (fun c => c.data.proxied)) = [some false] ∧
    (updateRecord envProxied zoneWWW (buildRecordConfig simpleWWW)).2
      = Except.ok UpdateOutcome.updated := by
  refine ⟨by decide, by decide, by decide⟩

/-- C6 (amended): every issued update preserves the existing record name
and ttl and sets proxied to the target record-config flag when that flag
is present, else to the existing record flag — but the array
configuration loader gives every target an explicit proxied flag
(parseBoolean of the proxy field with default false), so a target whose
operator omitted the proxy field updates with proxied false and can flip
an existing proxied record. -/
theorem C6_update_payload :
    (∀ (env : Env) (zone : ZoneConfig) (rc : RecordConfig) (er : DNSRecord)
      (ip : JStr),
      discoveryFor env rc.type = Except.ok ip →
      findDNSRecord env zone.zoneId rc = Except.ok (some er) →
      normalizeIP er.content ≠ normalizeIP ip →
      ∀ call ∈ (updateRecord env zone rc).1,
        call.data.name = some er.name ∧ call.data.ttl = some er.ttl ∧
          call.data.proxied = some (rc.proxied.getD er.proxied)) ∧
    (∀ r : SimpleRecordConfig,
      (buildRecordConfig r).proxied = some (parseBoolean r.proxy false)) := by
  constructor
  · intro env zone rc er ip hd hf hn call hcall
    rw [updateRecord_write_of_ne env zone rc er ip hd hf hn] at hcall
    simp only [List.mem_singleton] at hcall
    subst hcall
    exact ⟨rfl, rfl, rfl⟩
  · intro r
    rfl

/-- C6 witness: the end-to-end update preserves name and ttl and, with
no configured proxy flag on the target, keeps the existing record proxy
flag in the payload selector; the loader materialises an explicit flag. -/
theorem C6_witness :
    (∀ call ∈ (updateRecord envHappy zoneWWW rcWWW).1,
      call.data.name = some recWWW.name ∧ call.data.ttl = some recWWW.ttl ∧
        call.data.proxied = some (rcWWW.proxied.getD recWWW.proxied)) ∧
    (buildRecordConfig simpleWWW).proxied
      = some (parseBoolean simpleWWW.proxy false) :=
  ⟨C6_update_payload.1 envHappy zoneWWW rcWWW recWWW (s2l "10.0.0.2")
      (by decide) (by decide) (by decide),
    C6_update_payload.2 simpleWWW⟩

/-- C7 counterexample: requesting IPv4 with a first provider that
returns a well-formed IPv6 address, discovery does not move on to the
next provider — which would return a valid IPv4 address — but fails the
whole discovery with the wrong-family error: per-provider validation is
family-agnostic and the family filter runs once on the first structural
success. -/
theorem C7_wrong_family_stops :
    getPublicIPv4 [Provider.json true (some (s2l "2001:db8::1")),
      Provider.plain true (s2l "5.6.7.8")]
      = Except.error (IPDetectionError.wrongFamily (s2l "2001:db8::1")) ∧
    fetchProvider (Provider.plain true (s2l "5.6.7.8"))
      = Except.ok (s2l "5.6.7.8") ∧
    isValidIPv4 (s2l "5.6.7.8") = true := by
  refine ⟨by decide, by decide, by decide⟩

/-- C7 (amended): providers are tried in order with each result
validated as a well-formed address of either family; the first
structurally valid result is returned at once, earlier failures having
their errors recorded and the next provider tried; only when every
provider fails does discovery fail, carrying the count and all recorded
error messages; the requested-family check is applied once to the first
structurally valid result, and a wrong-family result there fails
discovery without trying the remaining providers. -/
theorem C7_provider_iteration :
    (∀ (pre : List Provider) (p : Provider) (post : List Provider)
      (v : JStr),
      (∀ q ∈ pre, isErrE (fetchProvider q) = true) →
      fetchProvider p = Except.ok v →
      tryProviders (pre ++ p :: post) = Except.ok v) ∧
    (∀ ps : List Provider,
      (∀ q ∈ ps, isErrE (fetchProvider q) = true) →
      tryProviders ps = Except.error
        (IPDetectionError.exhausted ps.length (ps.map fetchErrMsg))) ∧
    (∀ (pre : List Provider) (p : Provider) (post : List Provider)
      (ip : JStr),
      (∀ q ∈ pre, isErrE (fetchProvider q) = true) →
      fetchProvider p = Except.ok ip → isValidIPv4 ip = false →
      getPublicIPv4 (pre ++ p :: post)
        = Except.error (IPDetectionError.wrongFamily ip)) := by
  refine ⟨?_, ?_, ?_⟩
  · intro pre p post v hpre hp
    exact tryAux_ok pre [] p post v hpre hp
  · intro ps hps
    have h := tryAux_fail ps [] hps
    simpa using h
  · intro pre p post ip hpre hp hip
    have ht : tryProviders (pre ++ p :: post) = Except.ok ip :=
      tryAux_ok pre [] p post ip hpre hp
    unfold getPublicIPv4
    rw [ht]
    simp [hip]

/-- C7 witness: a failing provider falls through to the next, full
exhaustion reports the recorded error, and a lone wrong-family success
fails the v4 discovery. -/
theorem C7_witness :
    tryProviders [Provider.fail (s2l "boom"),
      Provider.plain true (s2l "1.2.3.4")] = Except.ok (s2l "1.2.3.4") ∧
    tryProviders [Provider.fail (s2l "down")]
      = Except.error (IPDetectionError.exhausted 1
          ([Provider.fail (s2l "down")].map fetchErrMsg)) ∧
    getPublicIPv4 [Provider.json true (some (s2l "2001:db8::1"))]
      = Except.error (IPDetectionError.wrongFamily (s2l "2001:db8::1")) :=
  ⟨C7_provider_iteration.1 [Provider.fail (s2l "boom")] _ [] _
      (by decide) (by decide),
    C7_provider_iteration.2.1 [Provider.fail (s2l "down")] (by decide),
    C7_provider_iteration.2.2 [] _ [] _ (by decide) (by decide) (by decide)⟩

theorem all_split255 (gs : List JStr) :
    gs.all (fun g =>
      1 ≤ g.length && g.length ≤ 3 && g.all isDigitCh && groupVal g ≤ 255)
    = (gs.all (fun g => 1 ≤ g.length && g.length ≤ 3 && g.all isDigitCh)
        && gs.all (fun g => groupVal g ≤ 255)) := by
  induction gs with
  | nil => rfl
  | cons x xs ih =>
    cases h1 : (1 ≤ x.length && x.length ≤ 3 && x.all isDigitCh) <;>
      cases h2 : (decide (groupVal x ≤ 255)) <;>
        simp [List.all_cons, h1, h2, ih]

/-- C8 counterexample: the string 0.0.0.0255 consists of four
dot-separated decimal groups each denoting an integer in the range 0 to
255 with no leading or trailing content, so the claim predicate accepts
it, but isValidIPv4 rejects it: the regex bounds each group at three
digits. -/
theorem C8_zero_padded_group :
    claimIPv4 (s2l "0.0.0.0255") = true ∧
    isValidIPv4 (s2l "0.0.0.0255") = false := by
  refine ⟨by decide, by decide⟩

/-- C8 (amended): isValidIPv4 accepts a string exactly when it consists
of four dot-separated groups of one to three decimal digits, each with
numeric value at most 255, with no leading or trailing content; the
function is total by construction.  Edge behaviour: 0 and 255 accepted,
256 rejected, wrong group counts rejected, all instances of this
equation. -/
theorem C8_ipv4_validator (s : JStr) : isValidIPv4 s = claimIPv4Len s := by
  cases hm : matchGroups 4 s with
  | some gs =>
    obtain ⟨hsplit, hlen, hok⟩ := matchGroups_sound 3 s gs hm
    have hL : isValidIPv4 s = gs.all (fun g => groupVal g ≤ 255) := by
      unfold isValidIPv4
      rw [hm]
    have hR : claimIPv4Len s
        = (decide (gs.length = 4) &&
            gs.all (fun g =>
              1 ≤ g.length && g.length ≤ 3 && g.all isDigitCh &&
                groupVal g ≤ 255)) := by
      unfold claimIPv4Len
      rw [hsplit]
    rw [hL, hR, all_split255, hok]
    have h4 : decide (gs.length = 4) = true := by simp [hlen]
    rw [h4]
    simp
  | none =>
    have hL : isValidIPv4 s = false := by
      unfold isValidIPv4
      rw [hm]
    rw [hL]
    cases hR : claimIPv4Len s with
    | false => rfl
    | true =>
      exfalso
      unfold claimIPv4Len at hR
      rw [all_split255] at hR
      simp only [Bool.and_eq_true, decide_eq_true_eq] at hR
      have hlen := hR.1
      have hA := hR.2.1
      have hc := matchGroups_complete 3 s (splitOnCh 46 s) rfl
        (by omega) hA
      have hc4 : matchGroups 4 s = some (splitOnCh 46 s) := hc
      rw [hm] at hc4
      exact Option.noConfusion hc4

/-- C8 witness: the equation instantiated at an edge-valued address. -/
theorem C8_witness :
    isValidIPv4 (s2l "255.0.0.1") = claimIPv4Len (s2l "255.0.0.1") :=
  C8_ipv4_validator (s2l "255.0.0.1")

/-- C9: a pass in which every per-target reconciliation fails still
returns a Summary normally — its error list accounts for every target,
with no update and no skip — and the scheduler treats the pass as
successful: the consecutive-failure counter resets to 0, the
last-success timestamp advances to the pass time, and no shutdown is
triggered; hence per-target failures alone never increment the counter,
never reach the ceiling, never cause fatal shutdown, and keep the
staleness clock fresh. -/
theorem C9_per_target_failures_benign (env : Env) (zones : List ZoneConfig)
    (st : WorkerState) (now : Nat) (hrun : st.isRunning = true)
    (hfail : ∀ z ∈ zones, ∀ rc ∈ z.records,
      isErrE (updateRecord env z rc).2 = true) :
    (performDNSCheck env zones st now).2 = none ∧
    (performDNSCheck env zones st now).1.consecutiveErrors = 0 ∧
    (performDNSCheck env zones st now).1.lastSuccessfulCheck = some now ∧
    (checkAndUpdateDNS env zones).1.updates = [] ∧
    (checkAndUpdateDNS env zones).1.skipped = 0 ∧
    (checkAndUpdateDNS env zones).1.errors.length
      = (checkAndUpdateDNS env zones).1.total := by
  have hsum := fold_zones_allfail env zones (emptySummary, []) hfail
  have hperf : performDNSCheck env zones st now
      = handlePassResult
          { st with
            checkCount := st.checkCount + 1
            lastCheckTime := some now } now
          (Except.ok (checkAndUpdateDNS env zones).1) := by
    have hr := retry_first_ok
      (fun _ => Except.ok (checkAndUpdateDNS env zones).1)
      ((checkAndUpdateDNS env zones).1) rfl
    unfold performDNSCheck performDNSCheckWith
    rw [hrun, hr]
    rfl
  refine ⟨?_, ?_, ?_, hsum.1, hsum.2.1, ?_⟩
  · rw [hperf]; rfl
  · rw [hperf]; rfl
  · rw [hperf]; rfl
  · have h3 := hsum.2.2
    simpa [checkAndUpdateDNS, emptySummary] using h3

/-- C9 witness: one target whose record fetch is rejected with 401 is
captured into the Summary; the pass succeeds, resets the counter, and
advances the last-success timestamp. -/
theorem C9_witness :
    (performDNSCheck env401 [zoneWWW] st0 5).2 = none ∧
    (performDNSCheck env401 [zoneWWW] st0 5).1.consecutiveErrors = 0 ∧
    (performDNSCheck env401 [zoneWWW] st0 5).1.lastSuccessfulCheck
      = some 5 ∧
    (checkAndUpdateDNS env401 [zoneWWW]).1.updates = [] ∧
    (checkAndUpdateDNS env401 [zoneWWW]).1.skipped = 0 ∧
    (checkAndUpdateDNS env401 [zoneWWW]).1.errors.length
      = (checkAndUpdateDNS env401 [zoneWWW]).1.total :=
  C9_per_target_failures_benign env401 [zoneWWW] st0 5 rfl (by decide)

/-- C10: the address written by an update is the normalised discovered
address, so a second pass that discovers the same address and reads back
the written value compares equal (normalisation is idempotent) and
skips: across the two passes exactly one provider write is issued. -/
theorem C10_idempotent (env1 env2 : Env) (zone : ZoneConfig)
    (rc : RecordConfig) (er1 er2 : DNSRecord) (ip : JStr)
    (hd1 : discoveryFor env1 rc.type = Except.ok ip)
    (hf1 : findDNSRecord env1 zone.zoneId rc = Except.ok (some er1))
    (hne : normalizeIP er1.content ≠ normalizeIP ip)
    (hd2 : discoveryFor env2 rc.type = Except.ok ip)
    (hf2 : findDNSRecord env2 zone.zoneId rc = Except.ok (some er2))
    (hc2 : er2.content = normalizeIP ip) :
    (∀ call ∈ (updateRecord env1 zone rc).1,
      call.data.content = normalizeIP ip) ∧
    updateRecord env2 zone rc = ([], Except.ok UpdateOutcome.skipped) ∧
    (updateRecord env1 zone rc).1.length
      + (updateRecord env2 zone rc).1.length = 1 := by
  have h1 := updateRecord_write_of_ne env1 zone rc er1 ip hd1 hf1 hne
  have h2 : updateRecord env2 zone rc
      = ([], Except.ok UpdateOutcome.skipped) := by
    apply updateRecord_skip_of_eq env2 zone rc er2 ip hd2 hf2
    rw [hc2, normalizeIP_idem]
  refine ⟨?_, h2, ?_⟩
  · intro call hcall
    rw [h1] at hcall
    simp only [List.mem_singleton] at hcall
    subst hcall
    rfl
  · rw [h1, h2]
    rfl

/-- C10 witness: first pass writes the normalised 10.0.0.2, second pass
against the written record skips; one write in total. -/
theorem C10_witness :
    (∀ call ∈ (updateRecord envHappy zoneWWW rcWWW).1,
      call.data.content = normalizeIP (s2l "10.0.0.2")) ∧
    updateRecord envSecond zoneWWW rcWWW
      = ([], Except.ok UpdateOutcome.skipped) ∧
    (updateRecord envHappy zoneWWW rcWWW).1.length
      + (updateRecord envSecond zoneWWW rcWWW).1.length = 1 :=
  C10_idempotent envHappy envSecond zoneWWW rcWWW recWWW
    { recWWW with content := s2l "10.0.0.2" } (s2l "10.0.0.2")
    (by decide) (by decide) (by decide) (by decide) (by decide) (by decide)

end Dyndns
